import Mathlib

/-!
Verification of the checkmate checklist-synchronization engine.

This file gives a shallow embedding of the CKLB merge / diff / generation
code of the repository (selected_merger.py, core/cklb_handler.py,
checkmate-lite/cklb_handler.py, cklb_generator.py, handlers.py) and proves
or refutes the frozen specification claims about it.

Modelling conventions:
  * a JSON rule / stig / checklist object is a record whose optional keys
    are `Option String` fields (`none` = key absent);
  * Python truthiness of a string-or-None value is `truthy`;
  * `dict.get(k, d)` is `getOr`;
  * `a or b` on string-or-None values is `pyOr`;
  * a Python dict comprehension `{key(r): r for r in rs}` (later entries
    overwrite earlier ones) is a left fold returning the last match;
  * code that can raise is embedded in `Except`.
-/

namespace Checkmate

/-- Python truthiness of a string-or-None value: `None` and `""` are falsy. -/
def truthy : Option String → Bool
  | none => false
  | some s => !(s == "")

/-- `d.get(k, fallback)` on an optional field: the value when the key is
present, the fallback otherwise. -/
def getOr (a b : Option String) : Option String :=
  match a with
  | some v => some v
  | none => b

/-- Python `a or b` on string-or-None values. -/
def pyOr (a b : Option String) : Option String :=
  if truthy a then a else b

/-- The `evaluate-stig` sub-record of a rule (merge-relevant keys only). -/
structure EvalFields where
  old_status : Option String
  new_status : Option String
deriving DecidableEq, Repr

/-- A CKLB rule as consumed by the merge and diff code: every key the code
reads, `none` meaning the key is absent from the JSON object. -/
structure Rule where
  rule_id : Option String
  id : Option String
  Rule_ID : Option String
  group_id_src : Option String
  group_id : Option String
  status : Option String
  comments : Option String
  finding_details : Option String
  overrides : Option String
  finding : Option String
  Finding : Option String
  rule_title : Option String
  severity : Option String
  fix_text : Option String
  check_content : Option String
  discussion : Option String
  evaluateStig : Option EvalFields
deriving DecidableEq, Repr

/-- A rule with no keys at all. -/
def blankRule : Rule :=
  ⟨none, none, none, none, none, none, none, none, none, none, none, none,
   none, none, none, none, none⟩

/-- A STIG definition object (merge-relevant keys). -/
structure Stig where
  stig_id : Option String
  uuid : Option String
  display_name : Option String
  rules : List Rule
deriving DecidableEq, Repr

/-- The `target_data` object (merge-relevant keys). -/
structure TargetData where
  host_name : Option String
deriving DecidableEq, Repr

/-- A CKLB checklist document (merge-relevant keys).  `evaluateStigTop`
records whether the document carries a top-level `evaluate-stig` key. -/
structure Cklb where
  stigs : List Stig
  target_data : Option TargetData
  cklb_version : Option String
  evaluateStigTop : Bool
deriving DecidableEq, Repr

/-- All rules of a checklist, stigs in order, rules in order
(`for stig in data["stigs"]: for rule in stig["rules"]`). -/
def allRules (c : Cklb) : List Rule :=
  c.stigs.foldr (fun s acc => s.rules ++ acc) []

/-! ### selected_merger.py -/

/-- The record appended by `selected_merger.find_new_rules`. -/
structure NewRuleInfo where
  group_id_src : Option String
  rule_title : String
  stig_uuid : Option String
  stig_display : Option String
deriving DecidableEq, Repr

/-- `old_gids`: the set of `group_id_src` values over all old rules. -/
def oldGids (old : Cklb) : List (Option String) :=
  (allRules old).map (·.group_id_src)

/-- `selected_merger.find_new_rules`: new-template rules whose
`group_id_src` does not occur among the old rules' `group_id_src` values. -/
def findNewRules (old new : Cklb) : List NewRuleInfo :=
  new.stigs.foldr
    (fun stig acc =>
      ((stig.rules.filter
          (fun r => !((oldGids old).contains r.group_id_src))).map
        (fun r =>
          ⟨r.group_id_src, r.rule_title.getD "", stig.uuid, stig.display_name⟩))
        ++ acc)
    []

/-- `data.get("stigs", [{}])[0].get("stig_id", "UNKNOWN") if data.get("stigs")
else "UNKNOWN"` — the first stig's `stig_id`, `"UNKNOWN"` when there is no
stig or the key is absent. -/
def firstStigId (c : Cklb) : String :=
  match c.stigs with
  | [] => "UNKNOWN"
  | s :: _ => s.stig_id.getD "UNKNOWN"

/-- `selected_merger.check_stig_id_match`. -/
def checkStigIdMatch (old new : Cklb) :
    Bool × String × String × List NewRuleInfo :=
  (firstStigId old == firstStigId new, firstStigId old, firstStigId new,
   findNewRules old new)

/-- The `old_lookup` dict of `selected_merger.main` restricted to a lookup:
only rules with a truthy `group_id_src` are keyed, later rules overwrite
earlier ones, and `gid in old_lookup` is false for falsy `gid`. -/
def oldLookupFind (old : Cklb) (gid : Option String) : Option Rule :=
  match gid with
  | none => none
  | some g =>
    if g = "" then none
    else (allRules old).foldl
      (fun acc r => if r.group_id_src == some g then some r else acc) none

/-- The per-rule body of the merge loop of `selected_merger.main`: when the
rule's `group_id_src` is in `old_lookup`, overwrite `status`, `comments`,
`finding_details` (each via `old.get(field, rule.get(field))`) and, when both
rules carry an `evaluate-stig` record, its `old_status`/`new_status`;
otherwise leave the rule unchanged. -/
def mergeRuleSel (old : Cklb) (r : Rule) : Rule :=
  match oldLookupFind old r.group_id_src with
  | some o =>
    let r1 := { r with
      status := getOr o.status r.status,
      comments := getOr o.comments r.comments,
      finding_details := getOr o.finding_details r.finding_details }
    match r1.evaluateStig, o.evaluateStig with
    | some _, some oe =>
      let ev := EvalFields.mk (some (oe.old_status.getD "")) (some (oe.new_status.getD ""))
      { r1 with evaluateStig := some ev }
    | _, _ => r1
  | none => r

/-- The merge loop of `selected_merger.main` over a rule list: produces the
mutated rules, the `updated` counter, and the `added` list of
`(group_id_src, rule.get("rule_title", "UNKNOWN TITLE"))` pairs, in
traversal order. -/
def mergeLoop (old : Cklb) : List Rule → List Rule × Nat × List (Option String × String)
  | [] => ([], 0, [])
  | r :: rest =>
    let t := mergeLoop old rest
    match oldLookupFind old r.group_id_src with
    | some _ => (mergeRuleSel old r :: t.1, t.2.1 + 1, t.2.2)
    | none =>
      (r :: t.1, t.2.1, (r.group_id_src, r.rule_title.getD "UNKNOWN TITLE") :: t.2.2)

/-- The merged document of `selected_merger.main`: a deep copy of the new
template whose rules are updated in place, whose `target_data` and
`cklb_version` are taken from the old document when present, and whose
top-level `evaluate-stig` key is removed. -/
def mergedSel (old new : Cklb) : Cklb :=
  { stigs := new.stigs.map (fun s => { s with rules := s.rules.map (mergeRuleSel old) }),
    target_data := if old.target_data.isSome then old.target_data else new.target_data,
    cklb_version := if old.cklb_version.isSome then old.cklb_version else new.cklb_version,
    evaluateStigTop := false }

/-- The added-rules list reported by `selected_merger.main`. -/
def addedSel (old new : Cklb) : List (Option String × String) :=
  (mergeLoop old (allRules new)).2.2

/-- The `updated` counter of `selected_merger.main`. -/
def updatedSel (old new : Cklb) : Nat :=
  (mergeLoop old (allRules new)).2.1

/-- The failure of `selected_merger.main` (printed message + `sys.exit(2)`):
it carries the old identity, the new identity, and the added-rule count. -/
inductive MergeErr where
  | stigIdMismatch (oldId newId : String) (newRuleCount : Nat)
deriving DecidableEq, Repr

/-- The successful result of `selected_merger.main` before file output. -/
structure MergeOutcome where
  merged : Cklb
  updated : Nat
  added : List (Option String × String)
deriving DecidableEq, Repr

/-- `selected_merger.main` up to (but not including) output naming: the
mismatch gate followed by the merge.  An error is returned before any
output is produced. -/
def selectedMergerRun (old new : Cklb) (force : Bool) : Except MergeErr MergeOutcome :=
  let t := checkStigIdMatch old new
  if !t.1 && !force then
    .error (.stigIdMismatch t.2.1 t.2.2.1 t.2.2.2.length)
  else
    .ok ⟨mergedSel old new, updatedSel old new, addedSel old new⟩

/-! ### core/cklb_handler.py (class CKLBHandler) -/

/-- `CKLBHandler.get_rules` on a document of the standard shape: the first
stig's rule list, `[]` when there is no stig.  (The source's fallbacks to
alternative top-level keys apply only to documents outside the CKLB shape
modelled here.) -/
def coreGetRules (c : Cklb) : List Rule :=
  match c.stigs with
  | s :: _ => s.rules
  | [] => []

/-- First element of a candidate list that is truthy, as in the chained
`rule.get(field)` / `if val:` lookup of `get_rule_key`. -/
def firstTruthy : List (Option String) → Option String
  | [] => none
  | o :: rest => if truthy o then o else firstTruthy rest

/-- `re.match(r'(SV-\d+)', val)`: when the value starts with `SV-` followed
by at least one digit, the match group is `SV-` plus the maximal leading
digit run; `get_rule_key` then returns it, otherwise the full value. -/
def svKeyOf (v : String) : String :=
  match v.data with
  | 'S' :: 'V' :: '-' :: c :: cs =>
    if c.isDigit then ⟨'S' :: 'V' :: '-' :: List.takeWhile Char.isDigit (c :: cs)⟩ else v
  | _ => v

/-- `CKLBHandler.get_rule_key`: try `rule_id`, `id`, `Rule_ID`,
`group_id_src`, `group_id` in order; for the first truthy value return its
`SV-<digits>` prefix when the value matches, the full value otherwise; when
no field yields a truthy value, fall back to `str(rule.get('rule_id', ''))`,
which is the empty string for an absent key. -/
def getRuleKey (r : Rule) : String :=
  match firstTruthy [r.rule_id, r.id, r.Rule_ID, r.group_id_src, r.group_id] with
  | some v => svKeyOf v
  | none => ""

/-- The `old_rules` dict of `merge_cklb_data` / `check_stig_id_match` as a
lookup: every old rule is keyed by `get_rule_key` (the empty key included),
later rules overwriting earlier ones. -/
def coreOldIndexFind (old : Cklb) (k : String) : Option Rule :=
  (coreGetRules old).foldl
    (fun acc r => if getRuleKey r == k then some r else acc) none

/-- `CKLBHandler.get_stig_info`'s `stig_id` followed by `or "UNKNOWN"` in
`check_stig_id_match`. -/
def coreStigId (c : Cklb) : String :=
  match c.stigs with
  | [] => "UNKNOWN"
  | s :: _ =>
    match s.stig_id with
    | some v => if v = "" then "UNKNOWN" else v
    | none => "UNKNOWN"

/-- The new-rules list of `CKLBHandler.check_stig_id_match` /
`find_new_rules`: new rules whose key is not a key of the old-rules dict. -/
def coreFindNewRules (old new : Cklb) : List Rule :=
  (coreGetRules new).filter
    (fun r => (coreOldIndexFind old (getRuleKey r)).isNone)

/-- `CKLBHandler.check_stig_id_match`. -/
def coreCheckStigIdMatch (old new : Cklb) : Bool × String × String × List Rule :=
  (coreStigId old == coreStigId new, coreStigId old, coreStigId new,
   coreFindNewRules old new)

/-- The per-rule body of `CKLBHandler.merge_cklb_data` with the default
`new_rule_defaults`: a rule whose key is in the old index gets `status`,
`comments`, `finding_details`, `overrides` from the old rule (for the keys
the old rule has); an unmatched rule gets the defaults for its missing
fields. -/
def coreMergeRule (old : Cklb) (r : Rule) : Rule :=
  match coreOldIndexFind old (getRuleKey r) with
  | some o =>
    { r with
      status := getOr o.status r.status,
      comments := getOr o.comments r.comments,
      finding_details := getOr o.finding_details r.finding_details,
      overrides := getOr o.overrides r.overrides }
  | none =>
    { r with
      status := getOr r.status (some "not_reviewed"),
      comments := getOr r.comments (some ""),
      finding_details := getOr r.finding_details (some "") }

/-- `merged_data['target_data'].update(old_data['target_data'])`, performed
only when both documents have a `target_data` key. -/
def coreMergeTarget (old new : Cklb) : Option TargetData :=
  match old.target_data, new.target_data with
  | some ot, some nt => some { host_name := getOr ot.host_name nt.host_name }
  | _, _ => new.target_data

/-- `CKLBHandler.merge_cklb_data`: deep-copy the new document, update its
`target_data` from the old one, and run the per-rule merge over the first
stig's rules (the only ones `get_rules` returns). -/
def mergeCklbData (old new : Cklb) : Cklb :=
  { stigs :=
      match new.stigs with
      | s :: rest => { s with rules := s.rules.map (coreMergeRule old) } :: rest
      | [] => [],
    target_data := coreMergeTarget old new,
    cklb_version := new.cklb_version,
    evaluateStigTop := new.evaluateStigTop }

/-! ### checkmate-lite/cklb_handler.py (compare_cklb_versions) -/

/-- `rule_key` of checkmate-lite: `rule.get('rule_id') or rule.get('id') or
rule.get('Rule_ID')` (the raw Python value, possibly `None`). -/
def liteRuleKey (r : Rule) : Option String :=
  pyOr (pyOr r.rule_id r.id) r.Rule_ID

/-- `findings_key` of checkmate-lite: `rule.get('status') or
rule.get('finding') or rule.get('Finding')`. -/
def liteFindings (r : Rule) : Option String :=
  pyOr (pyOr r.status r.finding) r.Finding

/-- The `{rule_key(r): r for r in rules}` dict of `compare_cklb_versions` as
a lookup (later rules overwrite earlier ones). -/
def liteDictFind (rs : List Rule) (k : Option String) : Option Rule :=
  rs.foldl (fun acc r => if liteRuleKey r == k then some r else acc) none

/-- Python truthiness of a rule dict: a dict is falsy iff it is empty.  A
rule in this model is a dict over exactly the modelled keys, so the dict is
empty iff every field is absent. -/
def ruleTruthy (r : Rule) : Bool :=
  r.rule_id.isSome || r.id.isSome || r.Rule_ID.isSome || r.group_id_src.isSome ||
  r.group_id.isSome || r.status.isSome || r.comments.isSome ||
  r.finding_details.isSome || r.overrides.isSome || r.finding.isSome ||
  r.Finding.isSome || r.rule_title.isSome || r.severity.isSome ||
  r.fix_text.isSome || r.check_content.isSome || r.discussion.isSome ||
  r.evaluateStig.isSome

/-- Python truthiness of `rules_x.get(rid)`: falsy when the key is absent
(`None`) or the rule dict is empty. -/
def optRuleTruthy : Option Rule → Bool
  | some r => ruleTruthy r
  | none => false

/-- `findings_key` applied to a `rules_x.get(rid)` result (only consulted
on truthy values, where it is some rule's `findings_key`). -/
def findingsOpt : Option Rule → Option String
  | some r => liteFindings r
  | none => none

/-- The lines the diff loop of `compare_cklb_versions` can emit per key. -/
inductive DiffLine where
  | onlyInA (k : Option String)
  | onlyInB (k : Option String)
  | diffLine (k : Option String) (fa fb : Option String)
deriving DecidableEq, Repr

/-- The exception `compare_cklb_versions` can raise in this model:
`sorted()` raises `TypeError` on a key set mixing `None` with strings. -/
inductive LiteErr where
  | typeError
deriving DecidableEq, Repr

/-- The key set `set(rules_a) | set(rules_b)` the diff loop iterates over
(before sorting). -/
def liteKeySet (a b : List Rule) : List (Option String) :=
  ((a.map liteRuleKey) ++ (b.map liteRuleKey)).dedup

/-- The comparison `sorted` uses on the keys: Python string `<=` on
strings.  The arms involving `None` are never reached: a key set mixing
`None` with strings raises `TypeError` before sorting (see
`compareRulesLite`), and a set containing only `None` is a singleton. -/
def liteKeyLE (x y : Option String) : Prop :=
  match x, y with
  | none, _ => True
  | some _, none => False
  | some s, some t => s ≤ t

instance liteKeyLE.dec : DecidableRel liteKeyLE := fun x y =>
  match x, y with
  | none, none => isTrue trivial
  | none, some _ => isTrue trivial
  | some _, none => isFalse (fun h => h)
  | some s, some t => inferInstanceAs (Decidable (s ≤ t))

/-- One iteration of the diff loop
(`if ra and not rb / elif rb and not ra / elif ra and rb`): the branch
guards test Python truthiness of the dicts, so a key whose rule is the
empty dict is reported as only-in-the-other-side, and a key with two empty
dicts produces nothing. -/
def liteBranch (a b : List Rule) (k : Option String) : List DiffLine :=
  let ra := liteDictFind a k
  let rb := liteDictFind b k
  if optRuleTruthy ra && !optRuleTruthy rb then [.onlyInA k]
  else if optRuleTruthy rb && !optRuleTruthy ra then [.onlyInB k]
  else if optRuleTruthy ra && optRuleTruthy rb then
    if findingsOpt ra ≠ findingsOpt rb then
      [.diffLine k (findingsOpt ra) (findingsOpt rb)]
    else []
  else []

/-- The `for rid in sorted(all_rule_ids)` loop body over an already-sorted
key list. -/
def liteDiffLoop (a b : List Rule) : List (Option String) → List DiffLine
  | [] => []
  | k :: rest => liteBranch a b k ++ liteDiffLoop a b rest

/-- The rule-diff part of `compare_cklb_versions` for one A/B pair:
`sorted(all_rule_ids)` raises `TypeError` when the key set mixes `None`
with strings (Python 3 cannot order them), aborting the comparison with no
diff output; otherwise the loop runs over the sorted keys. -/
def compareRulesLite (a b : List Rule) : Except LiteErr (List DiffLine) :=
  let ks := liteKeySet a b
  if none ∈ ks ∧ ∃ k ∈ ks, k.isSome = true then .error .typeError
  else .ok (liteDiffLoop a b (List.insertionSort liteKeyLE ks))

/-! ### Naming/output policy (selected_merger.py lines 91-107, handlers.py
run_merge_task lines 113-130) -/

/-- Python `str.strip()` on the whitespace class (model of `prefix.strip()`
in `run_merge_task`). -/
def pyStrip (s : String) : String :=
  ⟨((s.data.dropWhile Char.isWhitespace).reverse.dropWhile Char.isWhitespace).reverse⟩

/-- Host-identifier selection of `selected_merger.main`:
`host_prefix = args.prefix or old_data.get("target_data", {}).get("host_name")`,
falling back to the old file's base name (with a warning, the returned
flag) when that is falsy.  It never fails. -/
def hostIdentSel (pfx : Option String) (old : Cklb) (oldBase : String) : String × Bool :=
  let hp := if truthy pfx then pfx else old.target_data.bind (·.host_name)
  if truthy hp then (hp.getD "", false) else (oldBase, true)

/-- Host-identifier selection of `handlers.run_merge_task`: `host_name`
when truthy; otherwise the supplied prefix, unless it is `None` or blank
after `strip()`, in which case the batch is aborted with an error. -/
def hostIdentTask (hostName pfx : Option String) : Except String String :=
  if truthy hostName then .ok (hostName.getD "")
  else
    match pfx with
    | none => .error "Prefix required"
    | some p => if pyStrip p == "" then .error "Prefix required" else .ok p

/-- The candidate output names tried by the uniqueness loop:
`base`, then `base_1`, `base_2`, ... (`f"{base}_{counter}"` with a decimal
counter). -/
def candidateName (base : String) : Nat → String
  | 0 => base
  | k + 1 => base ++ "_" ++ Nat.repr (k + 1)

/-- The `while os.path.exists(...)` loop of `selected_merger.main`: starting
from candidate `k`, return the first candidate not in `taken`.  The fuel
argument is a bound on the number of iterations; `selOutName` supplies a
fuel that provably suffices, so this equals the source's unbounded loop. -/
def selFreeFrom (taken : List String) (base : String) : Nat → Nat → String
  | 0, k => candidateName base k
  | fuel + 1, k =>
    if candidateName base k ∈ taken then selFreeFrom taken base fuel (k + 1)
    else candidateName base k

/-- The output name chosen by `selected_merger.main` given the set of names
already existing in the output directory. -/
def selOutName (taken : List String) (base : String) : String :=
  selFreeFrom taken base taken.length 0

/-! #### Decimal representation: `Nat.repr` is injective.

`candidateName` uses `Nat.repr`; to show the uniqueness loop always finds a
free name we need the candidates to be pairwise distinct, hence the
following development. -/

/-- The decimal digit characters of `n`, most significant first. -/
def decChars (n : Nat) : List Char :=
  if h : n < 10 then [Nat.digitChar n]
  else decChars (n / 10) ++ [Nat.digitChar (n % 10)]
decreasing_by
  exact Nat.div_lt_self (by omega) (by omega)

theorem decChars_small (n : Nat) (h : n < 10) : decChars n = [Nat.digitChar n] := by
  conv_lhs => rw [decChars]
  simp [h]

theorem decChars_big (n : Nat) (h : ¬ n < 10) :
    decChars n = decChars (n / 10) ++ [Nat.digitChar (n % 10)] := by
  conv_lhs => rw [decChars]
  simp [h]

theorem decChars_ne_nil (n : Nat) : decChars n ≠ [] := by
  by_cases h : n < 10
  · rw [decChars_small n h]; simp
  · rw [decChars_big n h]; simp

theorem toDigitsCore_eq_decChars (f : Nat) :
    ∀ n l, n < f → Nat.toDigitsCore 10 f n l = decChars n ++ l := by
  induction f with
  | zero => intro n l h; omega
  | succ f ih =>
    intro n l h
    rw [Nat.toDigitsCore]
    by_cases h10 : n < 10
    · have hd : n / 10 = 0 := Nat.div_eq_of_lt h10
      have hm : n % 10 = n := Nat.mod_eq_of_lt h10
      simp only [hd, if_pos rfl, hm]
      rw [decChars]
      simp [h10]
    · have hd : ¬ (n / 10 = 0) := by
        intro hc
        exact h10 (by omega)
      have hlt : n / 10 < f := by
        have h1 : n / 10 < n := Nat.div_lt_self (by omega) (by omega)
        omega
      simp only [if_neg hd]
      rw [ih (n / 10) (Nat.digitChar (n % 10) :: l) hlt]
      conv_rhs => rw [decChars]
      simp [h10, List.append_assoc]

theorem repr_eq_decChars (n : Nat) : Nat.repr n = ⟨decChars n⟩ := by
  show (Nat.toDigits 10 n).asString = _
  rw [Nat.toDigits, toDigitsCore_eq_decChars (n + 1) n [] (Nat.lt_succ_self n)]
  simp [List.asString]

theorem digitChar_inj (a b : Nat) (ha : a < 10) (hb : b < 10)
    (h : Nat.digitChar a = Nat.digitChar b) : a = b := by
  interval_cases a <;> interval_cases b <;> simp_all [Nat.digitChar]

theorem decChars_inj : ∀ a b : Nat, decChars a = decChars b → a = b := by
  intro a
  induction a using Nat.strong_induction_on with
  | _ a ih =>
    intro b h
    by_cases ha : a < 10
    · by_cases hb : b < 10
      · rw [decChars_small a ha, decChars_small b hb] at h
        exact digitChar_inj a b ha hb (by injection h)
      · rw [decChars_small a ha, decChars_big b hb] at h
        have := congrArg List.length h
        have hne := decChars_ne_nil (b / 10)
        simp at this
        cases hd : decChars (b / 10) with
        | nil => exact absurd hd hne
        | cons x xs => rw [hd] at this; simp at this
    · by_cases hb : b < 10
      · rw [decChars_big a ha, decChars_small b hb] at h
        have := congrArg List.length h
        have hne := decChars_ne_nil (a / 10)
        simp at this
        cases hd : decChars (a / 10) with
        | nil => exact absurd hd hne
        | cons x xs => rw [hd] at this; simp at this
      · rw [decChars_big a ha, decChars_big b hb] at h
        have h2 := congrArg List.reverse h
        simp at h2
        obtain ⟨hdig, htail⟩ := h2
        have htl : decChars (a / 10) = decChars (b / 10) := by
          have := congrArg List.reverse htail
          simpa using this
        have hq : a / 10 = b / 10 :=
          ih (a / 10) (Nat.div_lt_self (by omega) (by omega)) (b / 10) htl
        have hr : a % 10 = b % 10 :=
          digitChar_inj _ _ (Nat.mod_lt a (by omega)) (Nat.mod_lt b (by omega)) hdig
        omega

theorem natRepr_inj : Function.Injective Nat.repr := by
  intro a b h
  rw [repr_eq_decChars, repr_eq_decChars] at h
  exact decChars_inj a b (congrArg String.data h)

theorem candidateName_inj (base : String) : Function.Injective (candidateName base) := by
  intro a b h
  match a, b with
  | 0, 0 => rfl
  | 0, k + 1 =>
    exfalso
    have := congrArg String.length h
    simp [candidateName, String.length_append] at this
    have : (Nat.repr (k + 1)).length > 0 := by
      rw [repr_eq_decChars]
      have := decChars_ne_nil (k + 1)
      cases hd : decChars (k + 1) with
      | nil => exact absurd hd this
      | cons x xs => simp [String.length, hd]
    omega
  | k + 1, 0 =>
    exfalso
    have := congrArg String.length h
    simp [candidateName, String.length_append] at this
    have : (Nat.repr (k + 1)).length > 0 := by
      rw [repr_eq_decChars]
      have := decChars_ne_nil (k + 1)
      cases hd : decChars (k + 1) with
      | nil => exact absurd hd this
      | cons x xs => simp [String.length, hd]
    omega
  | a + 1, b + 1 =>
    have hdata := congrArg String.data h
    simp [candidateName, String.data_append] at hdata
    have := natRepr_inj (String.ext hdata)
    omega

/-- Among the first `taken.length + 1` candidate names, at least one is not
taken (the candidates are pairwise distinct). -/
theorem exists_candidate_free (taken : List String) (base : String) :
    ∃ j, j ≤ taken.length ∧ candidateName base j ∉ taken := by
  by_contra hc
  push_neg at hc
  have hsub : (List.range (taken.length + 1)).map (candidateName base) ⊆ taken := by
    intro x hx
    simp only [List.mem_map, List.mem_range] at hx
    obtain ⟨j, hj, rfl⟩ := hx
    exact hc j (by omega)
  have hnd : ((List.range (taken.length + 1)).map (candidateName base)).Nodup :=
    (List.nodup_range _).map (candidateName_inj base)
  have hle := (List.subperm_of_subset hnd hsub).length_le
  simp at hle

/-- Specification of the uniqueness loop: under the fuel bound it returns
the first free candidate at or after position `k`. -/
theorem selFreeFrom_spec (taken : List String) (base : String) :
    ∀ (fuel k : Nat), (∃ j, j ≤ fuel ∧ candidateName base (k + j) ∉ taken) →
    ∃ j, j ≤ fuel ∧ selFreeFrom taken base fuel k = candidateName base (k + j) ∧
      candidateName base (k + j) ∉ taken ∧
      ∀ i, i < j → candidateName base (k + i) ∈ taken := by
  intro fuel
  induction fuel with
  | zero =>
    intro k h
    obtain ⟨j, hj, hfree⟩ := h
    have hj0 : j = 0 := by omega
    subst hj0
    exact ⟨0, le_refl 0, rfl, hfree, by omega⟩
  | succ fuel ih =>
    intro k h
    by_cases hmem : candidateName base k ∈ taken
    · obtain ⟨j, hj, hfree⟩ := h
      match j, hj, hfree with
      | 0, _, hfree => exact absurd hmem (by simpa using hfree)
      | j' + 1, hj, hfree =>
        have hstep : ∃ j, j ≤ fuel ∧ candidateName base (k + 1 + j) ∉ taken :=
          ⟨j', by omega, by
            have : k + 1 + j' = k + (j' + 1) := by omega
            rw [this]; exact hfree⟩
        obtain ⟨j₀, hj₀, heq, hfree₀, hall⟩ := ih (k + 1) hstep
        refine ⟨j₀ + 1, by omega, ?_, ?_, ?_⟩
        · rw [selFreeFrom, if_pos hmem, heq]
          congr 1
          omega
        · have : k + (j₀ + 1) = k + 1 + j₀ := by omega
          rw [this]; exact hfree₀
        · intro i hi
          match i, hi with
          | 0, _ => simpa using hmem
          | i' + 1, hi =>
            have : k + (i' + 1) = k + 1 + i' := by omega
            rw [this]
            exact hall i' (by omega)
    · exact ⟨0, by omega, by rw [selFreeFrom, if_neg hmem]; simp, by simpa using hmem,
        by omega⟩

/-- The output name chosen by the uniqueness loop is the first free
candidate: `base` when free, otherwise the first free `base_k`. -/
theorem selOutName_spec (taken : List String) (base : String) :
    ∃ j, selOutName taken base = candidateName base j ∧
      candidateName base j ∉ taken ∧
      ∀ i, i < j → candidateName base i ∈ taken := by
  obtain ⟨j, hj, hfree⟩ := exists_candidate_free taken base
  obtain ⟨j₀, _, heq, hfree₀, hall⟩ :=
    selFreeFrom_spec taken base taken.length 0 ⟨j, hj, by simpa using hfree⟩
  exact ⟨j₀, by simpa using heq, by simpa using hfree₀, fun i hi => by
    have := hall i hi; simpa using this⟩

/-- The chosen output name never collides with an existing file. -/
theorem selOutName_free (taken : List String) (base : String) :
    selOutName taken base ∉ taken := by
  obtain ⟨j, heq, hfree, _⟩ := selOutName_spec taken base
  rw [heq]; exact hfree

/-! ### cklb_generator.py — XCCDF parsing

The XML tree is modelled structurally; tag names drop the uniform
`xccdf:` namespace qualifier.  `Element.find` returning `None` followed by
an attribute access (`.text`) is a Python `AttributeError`, embedded as
`Except`. -/

/-- An XML element: tag, attributes, text content (`none` = no text), and
child elements in document order. -/
inductive XElem where
  | mk (tag : String) (attrs : List (String × String)) (text : Option String)
       (children : List XElem)

def XElem.tag : XElem → String
  | .mk t _ _ _ => t

def XElem.attrs : XElem → List (String × String)
  | .mk _ a _ _ => a

def XElem.text : XElem → Option String
  | .mk _ _ tx _ => tx

def XElem.children : XElem → List XElem
  | .mk _ _ _ c => c

/-- `elem.find(tag)`: first child with the tag. -/
def XElem.find (e : XElem) (t : String) : Option XElem :=
  e.children.find? (fun c => c.tag == t)

/-- `elem.findall(tag)`: all children with the tag, in document order. -/
def XElem.findall (e : XElem) (t : String) : List XElem :=
  e.children.filter (fun c => c.tag == t)

/-- `elem.get(attr)`: attribute lookup. -/
def XElem.attr (e : XElem) (k : String) : Option String :=
  (e.attrs.find? (fun p => p.1 == k)).map (·.2)

/-- `elem.find('t1/t2')`: the first `t2` grandchild reachable through a
`t1` child, scanning `t1` children in document order. -/
def XElem.findPath2 (e : XElem) (t1 t2 : String) : Option XElem :=
  ((e.findall t1).map (fun c => c.find t2)).foldl
    (fun acc o => match acc with | some _ => acc | none => o) none

/-- `root.find("plain-text[@id='release-info']")`. -/
def findReleaseInfo (e : XElem) : Option XElem :=
  e.children.find? (fun c => c.tag == "plain-text" && c.attr "id" == some "release-info")

/-- The Python exceptions the generator can raise in this model. -/
inductive PyErr where
  | attributeError
deriving DecidableEq, Repr

/-- `opt.text or ""` where `opt` is the result of a `find`: raises
`AttributeError` when the element is absent (`None.text`), else yields its
text or the empty string. -/
def textOrFail (o : Option XElem) : Except PyErr String :=
  match o with
  | some e => .ok (e.text.getD "")
  | none => .error .attributeError

/-- `elem.text or ""` guarded by `if node is not None else ""`. -/
def textOrEmpty (o : Option XElem) : String :=
  match o with
  | some e => e.text.getD ""
  | none => ""

/-- Python whitespace stripping used for `.strip()` calls. -/
def pyStripText (o : Option String) : String :=
  match o with
  | some t => if t == "" then "" else pyStrip t
  | none => ""

/-- Python `str.replace(pat, rep)` on character lists: replace every
non-overlapping occurrence, scanning left to right. -/
def replaceList (pat rep : List Char) : List Char → List Char
  | [] => []
  | c :: cs =>
    if h : pat.isPrefixOf (c :: cs) ∧ pat ≠ [] then
      rep ++ replaceList pat rep ((c :: cs).drop pat.length)
    else
      c :: replaceList pat rep cs
termination_by l => l.length
decreasing_by
  · have hp : 1 ≤ pat.length := by
      cases pat with
      | nil => exact absurd rfl h.2
      | cons p ps => simp
    simp [List.length_drop]
    omega
  · simp

/-- Python `s.replace(pat, rep)` (for the non-empty patterns the source
uses). -/
def pyReplace (s pat rep : String) : String :=
  ⟨replaceList pat.data rep.data s.data⟩

/-- `parse_benchmark`: reads the benchmark title, id attribute,
release-info plain-text and version.  A missing `title`, `plain-text` or
`version` element raises `AttributeError`. -/
def parseBenchmark (root : XElem) : Except PyErr (String × String × String × String) := do
  let stig_name ← textOrFail (root.find "title")
  let stig_id := (root.attr "id").getD ""
  let release_info ← textOrFail (findReleaseInfo root)
  let stig_version ← textOrFail (root.find "version")
  return (stig_name, stig_id, release_info, stig_version)

/-- The `evaluate-stig` record the generator writes into each rule. -/
structure GenEval where
  answer_file : String
  last_write : String
  afmod : Bool
  old_status : String
  new_status : String
deriving DecidableEq, Repr

/-- `check-content-ref` attributes. -/
structure CCRef where
  href : Option String
  name : Option String
deriving DecidableEq, Repr

/-- A rule as assembled by `cklb_generator.parse_rules` (every key of the
source's rule dict that carries data). -/
structure GenRule where
  evaluateStig : GenEval
  group_id_src : String
  group_id : String
  group_title : String
  group_description : String
  severity : Option String
  rule_id_src : String
  rule_id : String
  rule_version : String
  rule_title : String
  fix_text : String
  weight : Option String
  check_content : String
  check_content_ref : Option CCRef
  classification : String
  discussion : String
  false_positives : String
  false_negatives : String
  documentable : String
  security_override_guidance : String
  potential_impacts : String
  third_party_tools : String
  mitigations : String
  mitigation_control : String
  responsibility : String
  ia_controls : String
  ccis : List (Option String)
  reference_identifier : Option String
  uuid : String
  stig_uuid : String
  status : String
  overrides : Unit
  comments : String
  finding_details : String
deriving DecidableEq, Repr

/-- One iteration of the `for grp in root.findall('Group')` body after the
`Rule` child has been found.  Raises `AttributeError` at the sites the
source leaves unguarded: the group's `title` and `description` and the
rule's `version` and `title`. -/
def parseOneRule (grp ruleElem : XElem) (inputBase mtime stig_uuid ruleUuid : String) :
    Except PyErr GenRule := do
  let gid_src := (grp.attr "id").getD ""
  let rid_src := (ruleElem.attr "id").getD ""
  let pretty_rid := pyReplace rid_src "_rule" ""
  let group_title ← textOrFail (grp.find "title")
  let group_desc ← textOrFail (grp.find "description")
  let descElem := ruleElem.find "description"
  let dd := fun (sec : String) =>
    match descElem with
    | some d => textOrEmpty (d.find sec)
    | none => ""
  let fixElem :=
    match ruleElem.findPath2 "fix" "fixtext" with
    | some e => some e
    | none => ruleElem.find "fixtext"
  let fix_text :=
    match fixElem with
    | some e => pyStripText e.text
    | none => ""
  let check := ruleElem.find "check"
  let check_content :=
    match check with
    | some c =>
      match c.find "check-content" with
      | some cc => pyStripText cc.text
      | none => ""
    | none => ""
  let check_ref :=
    (check.bind (·.find "check-content-ref")).map
      (fun cr => CCRef.mk (cr.attr "href") (cr.attr "name"))
  let ccis :=
    (ruleElem.children.filter
      (fun c => c.tag == "ident" && c.attr "system" == some "http://cyber.mil/cci")).map
      (·.text)
  let ref_id := ccis.head?.bind (fun x => x)
  let rule_version ← textOrFail (ruleElem.find "version")
  let rule_title ← textOrFail (ruleElem.find "title")
  return {
    evaluateStig := ⟨inputBase, mtime ++ "Z", false, "", ""⟩,
    group_id_src := gid_src,
    group_id := gid_src,
    group_title := group_title,
    group_description := group_desc,
    severity := ruleElem.attr "severity",
    rule_id_src := rid_src,
    rule_id := pretty_rid,
    rule_version := rule_version,
    rule_title := rule_title,
    fix_text := fix_text,
    weight := ruleElem.attr "weight",
    check_content := check_content,
    check_content_ref := check_ref,
    classification := "UNCLASSIFIED",
    discussion := dd "VulnDiscussion",
    false_positives := dd "FalsePositives",
    false_negatives := dd "FalseNegatives",
    documentable := dd "Documentable",
    security_override_guidance := dd "SeverityOverrideGuidance",
    potential_impacts := dd "PotentialImpacts",
    third_party_tools := dd "ThirdPartyTools",
    mitigations := dd "Mitigations",
    mitigation_control := dd "MitigationControl",
    responsibility := dd "Responsibility",
    ia_controls := dd "IAControls",
    ccis := ccis,
    reference_identifier := ref_id,
    uuid := ruleUuid,
    stig_uuid := stig_uuid,
    status := "not_reviewed",
    overrides := (),
    comments := "",
    finding_details := "" }

/-- The group loop of `parse_rules`: a `Group` without a `Rule` child is
skipped (`continue`); otherwise the rule is built.  `uuidGen i` stands for
the `uuid.uuid4()` call made for the i-th built rule. -/
def parseRulesLoop (inputBase mtime stig_uuid : String) (uuidGen : Nat → String) :
    List XElem → Nat → Except PyErr (List GenRule)
  | [], _ => .ok []
  | grp :: rest, i =>
    match grp.find "Rule" with
    | none => parseRulesLoop inputBase mtime stig_uuid uuidGen rest i
    | some ruleElem => do
      let r ← parseOneRule grp ruleElem inputBase mtime stig_uuid (uuidGen i)
      let rs ← parseRulesLoop inputBase mtime stig_uuid uuidGen rest (i + 1)
      return r :: rs

/-- `cklb_generator.parse_rules`. -/
def parseRules (root : XElem) (inputBase mtime stig_uuid : String)
    (uuidGen : Nat → String) : Except PyErr (List GenRule) :=
  parseRulesLoop inputBase mtime stig_uuid uuidGen (root.findall "Group") 0

/-- The stig object assembled by `build_cklb`. -/
structure GenStig where
  stig_name : String
  display_name : String
  stig_id : String
  release_info : String
  version : String
  uuid : String
  size : Nat
  reference_identifier : Option String
  rules : List GenRule
deriving DecidableEq, Repr

/-- The checklist document assembled by `build_cklb`. -/
structure GenCklb where
  title : String
  id : String
  stigs : List GenStig
  active : Bool
  mode : Nat
  has_path : Bool
  host_name : String
  cklb_version : String
deriving DecidableEq, Repr

/-- `cklb_generator.build_cklb`: parse the benchmark header and the rules,
then assemble the checklist.  `stigUuid`/`cklbId` stand for the two
`uuid.uuid4()` calls, `uuidGen` for the per-rule ones. -/
def buildCklb (root : XElem) (inputBase mtime stigUuid cklbId : String)
    (uuidGen : Nat → String) : Except PyErr GenCklb := do
  let hdr ← parseBenchmark root
  let rules ← parseRules root inputBase mtime stigUuid uuidGen
  let ref_id :=
    match rules.head? with
    | some r => r.reference_identifier
    | none => none
  let stig : GenStig := {
    stig_name := hdr.1,
    display_name := pyReplace hdr.1 "Security Technical Implementation Guide" "STIG",
    stig_id := hdr.2.1,
    release_info := hdr.2.2.1,
    version := hdr.2.2.2,
    uuid := stigUuid,
    size := rules.length,
    reference_identifier := ref_id,
    rules := rules }
  return {
    title := hdr.1,
    id := cklbId,
    stigs := [stig],
    active := true,
    mode := 2,
    has_path := false,
    host_name := "",
    cklb_version := "1.0" }

/-! ## Supporting lemmas -/

theorem firstTruthy_none {l : List (Option String)} (h : firstTruthy l = none) :
    ∀ o ∈ l, truthy o = false := by
  induction l with
  | nil => intro o ho; simp at ho
  | cons x xs ih =>
    intro o ho
    rw [firstTruthy] at h
    by_cases hx : truthy x
    · rw [if_pos hx] at h
      cases x with
      | none => simp [truthy] at hx
      | some v => simp at h
    · rw [if_neg hx] at h
      rcases List.mem_cons.mp ho with rfl | hmem
      · simpa using hx
      · exact ih h o hmem

theorem svKeyOf_ne_empty (v : String) (hv : v ≠ "") : svKeyOf v ≠ "" := by
  unfold svKeyOf
  split
  · split
    · intro hc
      have := congrArg String.data hc
      simp at this
    · exact hv
  · exact hv

theorem firstTruthy_some {l : List (Option String)} {v : String}
    (h : firstTruthy l = some v) : v ≠ "" := by
  induction l with
  | nil => simp [firstTruthy] at h
  | cons x xs ih =>
    rw [firstTruthy] at h
    by_cases hx : truthy x
    · rw [if_pos hx] at h
      cases x with
      | none => simp [truthy] at hx
      | some w =>
        have hwv : w = v := by injection h
        subst hwv
        simp [truthy] at hx
        exact hx
    · rw [if_neg hx] at h
      exact ih h

theorem getRuleKey_empty_fields {r : Rule} (h : getRuleKey r = "") :
    truthy r.rule_id = false ∧ truthy r.id = false ∧ truthy r.Rule_ID = false ∧
    truthy r.group_id_src = false ∧ truthy r.group_id = false := by
  have hnone : firstTruthy [r.rule_id, r.id, r.Rule_ID, r.group_id_src, r.group_id] = none := by
    cases hs : firstTruthy [r.rule_id, r.id, r.Rule_ID, r.group_id_src, r.group_id] with
    | none => rfl
    | some v =>
      rw [getRuleKey, hs] at h
      exact absurd h (svKeyOf_ne_empty v (firstTruthy_some hs))
  have hall := firstTruthy_none hnone
  exact ⟨hall _ (by simp), hall _ (by simp), hall _ (by simp), hall _ (by simp),
    hall _ (by simp)⟩

theorem mergeRuleSel_unmatched {old : Cklb} {r : Rule}
    (h : oldLookupFind old r.group_id_src = none) : mergeRuleSel old r = r := by
  rw [mergeRuleSel, h]

theorem mergeLoop_rules (old : Cklb) (rs : List Rule) :
    (mergeLoop old rs).1 = rs.map (mergeRuleSel old) := by
  induction rs with
  | nil => rfl
  | cons r rest ih =>
    rw [mergeLoop]
    cases h : oldLookupFind old r.group_id_src with
    | some o => simpa using ih
    | none => simp [mergeRuleSel_unmatched h]; exact ih

theorem mergeLoop_added (old : Cklb) (rs : List Rule) :
    (mergeLoop old rs).2.2 =
      (rs.filter (fun r => (oldLookupFind old r.group_id_src).isNone)).map
        (fun r => (r.group_id_src, r.rule_title.getD "UNKNOWN TITLE")) := by
  induction rs with
  | nil => rfl
  | cons r rest ih =>
    rw [mergeLoop]
    cases h : oldLookupFind old r.group_id_src with
    | some o => simp [List.filter_cons, h]; exact ih
    | none => simp [List.filter_cons, h]; exact ih

theorem allRules_mergedSel (old new : Cklb) :
    allRules (mergedSel old new) = (allRules new).map (mergeRuleSel old) := by
  show (new.stigs.map _).foldr _ [] = _
  rw [allRules]
  induction new.stigs with
  | nil => rfl
  | cons s ss ih => simp [List.foldr_cons, List.map_append]; exact ih

theorem takeWhile_all_append (p : Char → Bool) (ds suf : List Char)
    (hds : ∀ c ∈ ds, p c = true) (hsuf : ∀ c, suf.head? = some c → p c = false) :
    List.takeWhile p (ds ++ suf) = ds := by
  induction ds with
  | nil =>
    cases suf with
    | nil => rfl
    | cons c cs => simp [List.takeWhile_cons, hsuf c rfl]
  | cons d ds' ih =>
    have hd : p d = true := hds d (by simp)
    have hih := ih (fun c hc => hds c (by simp [hc]))
    simp [List.takeWhile_cons, hd, hih]

theorem coreGetRules_merge (old new : Cklb) :
    coreGetRules (mergeCklbData old new) = (coreGetRules new).map (coreMergeRule old) := by
  rw [mergeCklbData, coreGetRules, coreGetRules]
  cases new.stigs with
  | nil => rfl
  | cons s rest => rfl

/-- The descriptive (non-user-owned) fields of a rule, as one tuple. -/
def descrOf (r : Rule) :
    Option String × Option String × Option String × Option String × Option String ×
    Option String × Option String × Option String × Option String × Option String :=
  (r.rule_id, r.id, r.Rule_ID, r.group_id_src, r.group_id, r.rule_title, r.severity,
   r.fix_text, r.check_content, r.discussion)

theorem coreMergeRule_descr (old : Cklb) (r : Rule) :
    descrOf (coreMergeRule old r) = descrOf r := by
  rw [coreMergeRule]
  cases coreOldIndexFind old (getRuleKey r) <;> rfl

theorem mergeRuleSel_descr (old : Cklb) (r : Rule) :
    descrOf (mergeRuleSel old r) = descrOf r := by
  rw [mergeRuleSel]
  cases oldLookupFind old r.group_id_src with
  | none => rfl
  | some o =>
    dsimp only
    split <;> rfl

theorem liteDictFind_mem {rs : List Rule} {k : Option String} {r : Rule} :
    ∀ acc : Option Rule,
    rs.foldl (fun a x => if liteRuleKey x == k then some x else a) acc = some r →
    (∃ x ∈ rs, liteRuleKey x = k ∧ x = r) ∨ acc = some r := by
  induction rs with
  | nil => intro acc h; exact Or.inr h
  | cons x xs ih =>
    intro acc h
    rw [List.foldl_cons] at h
    rcases ih _ h with ⟨y, hy, hk, rfl⟩ | hacc
    · exact Or.inl ⟨y, by simp [hy], hk, rfl⟩
    · by_cases hx : liteRuleKey x = k
      · rw [if_pos (by simp [hx])] at hacc
        exact Or.inl ⟨x, by simp, hx, by injection hacc⟩
      · rw [if_neg (by simp [hx])] at hacc
        exact Or.inr hacc

theorem liteDictFind_some {rs : List Rule} {k : Option String} {r : Rule}
    (h : liteDictFind rs k = some r) :
    liteRuleKey r = k ∧ k ∈ rs.map liteRuleKey := by
  rcases liteDictFind_mem none h with ⟨x, hx, hk, rfl⟩ | hacc
  · exact ⟨hk, by rw [← hk]; exact List.mem_map_of_mem _ hx⟩
  · simp at hacc

theorem liteDictFind_map {g : Rule → Rule} (hg : ∀ r, liteRuleKey (g r) = liteRuleKey r)
    (rs : List Rule) (k : Option String) :
    liteDictFind (rs.map g) k = (liteDictFind rs k).map g := by
  rw [liteDictFind, liteDictFind]
  have haux : ∀ acc : Option Rule,
      (rs.map g).foldl (fun a x => if liteRuleKey x == k then some x else a) (acc.map g) =
      (rs.foldl (fun a x => if liteRuleKey x == k then some x else a) acc).map g := by
    induction rs with
    | nil => intro acc; rfl
    | cons x xs ih =>
      intro acc
      simp only [List.map_cons, List.foldl_cons, hg x]
      by_cases hx : liteRuleKey x = k
      · rw [if_pos (by simp [hx]), if_pos (by simp [hx])]
        exact haveI := ih; by
          have := ih (some x)
          simpa using this
      · rw [if_neg (by simp [hx]), if_neg (by simp [hx])]
        exact ih acc
  have := haux none
  simpa using this

/-! ## Concrete documents used by witnesses and counterexamples -/

/-- An old rule carrying user findings, keyed `V-100` / `SV-100`. -/
def ruleOld100 : Rule :=
  { blankRule with
    group_id_src := some "V-100", rule_id := some "SV-100r1_rule",
    rule_title := some "Old rule", status := some "open",
    comments := some "c1", finding_details := some "d1" }

/-- The new template's revision of the same rule. -/
def ruleNew100 : Rule :=
  { blankRule with
    group_id_src := some "V-100", rule_id := some "SV-100r2_rule",
    rule_title := some "Same rule", status := some "not_reviewed",
    comments := some "", finding_details := some "" }

/-- A rule that exists only in the new template. -/
def ruleNew200 : Rule :=
  { blankRule with
    group_id_src := some "V-200", rule_id := some "SV-200r1_rule",
    rule_title := some "Added rule", status := some "not_reviewed",
    comments := some "", finding_details := some "" }

/-- An old checklist with one finding. -/
def oldDoc : Cklb :=
  ⟨[⟨some "RHEL_8_STIG", some "u-old", some "Old STIG", [ruleOld100]⟩],
   some ⟨some "H"⟩, some "1.0", false⟩

/-- A new template with the same STIG id, one shared and one added rule. -/
def newDoc : Cklb :=
  ⟨[⟨some "RHEL_8_STIG", some "u-new", some "New STIG", [ruleNew100, ruleNew200]⟩],
   some ⟨some ""⟩, some "1.0", true⟩

/-- A new template with a different STIG id. -/
def newDocB : Cklb :=
  ⟨[⟨some "WIN_11_STIG", some "u-b", some "Other STIG", [ruleNew200]⟩],
   none, some "1.0", true⟩

/-! ## Claim theorems -/

/-- Claim C1: when the first StigDefinitions of the old checklist and the
new template carry different `stig_id` values (absent treated as
`"UNKNOWN"`), `selected_merger` with `force = false` fails with a
STIG-identity-mismatch error carrying the old identity, the new identity
and the added-rule count, producing no merged output; with `force = true`
the same inputs produce a non-error merged result. -/
theorem stig_mismatch_gate (old new : Cklb) (h : firstStigId old ≠ firstStigId new) :
    selectedMergerRun old new false =
      .error (.stigIdMismatch (firstStigId old) (firstStigId new)
        (findNewRules old new).length) ∧
    ∃ m : MergeOutcome, selectedMergerRun old new true = .ok m := by
  have hb : (firstStigId old == firstStigId new) = false := by
    simp [h]
  constructor
  · rw [selectedMergerRun]
    simp [checkStigIdMatch, hb]
  · refine ⟨⟨mergedSel old new, updatedSel old new, addedSel old new⟩, ?_⟩
    rw [selectedMergerRun]
    simp [checkStigIdMatch, hb]

theorem stig_mismatch_gate_witness :
    selectedMergerRun oldDoc newDocB false =
      .error (.stigIdMismatch "RHEL_8_STIG" "WIN_11_STIG" 1) ∧
    ∃ m : MergeOutcome, selectedMergerRun oldDoc newDocB true = .ok m := by
  have h := stig_mismatch_gate oldDoc newDocB (by decide)
  rcases h with ⟨h1, h2⟩
  exact ⟨by rw [h1]; rfl, h2⟩

/-- Claim C4: `get_rule_key` tries `rule_id`, `id`, `Rule_ID`,
`group_id_src`, `group_id` in that order; for the first field that yields a
value, a value starting with `SV-<digits>` gives exactly that prefix as the
key, any other value is returned unmodified; in particular an `SV-<digits>`
value with a trailing suffix resolves to the same key as the bare
`SV-<digits>` value. -/
theorem rule_key_resolution :
    (∀ (r : Rule) (v : String), r.rule_id = some v → v ≠ "" →
      getRuleKey r = svKeyOf v) ∧
    (∀ (r : Rule) (v : String), truthy r.rule_id = false → r.id = some v → v ≠ "" →
      getRuleKey r = svKeyOf v) ∧
    (∀ (r : Rule) (v : String), truthy r.rule_id = false → truthy r.id = false →
      r.Rule_ID = some v → v ≠ "" → getRuleKey r = svKeyOf v) ∧
    (∀ (r : Rule) (v : String), truthy r.rule_id = false → truthy r.id = false →
      truthy r.Rule_ID = false → r.group_id_src = some v → v ≠ "" →
      getRuleKey r = svKeyOf v) ∧
    (∀ (r : Rule) (v : String), truthy r.rule_id = false → truthy r.id = false →
      truthy r.Rule_ID = false → truthy r.group_id_src = false →
      r.group_id = some v → v ≠ "" → getRuleKey r = svKeyOf v) ∧
    (∀ (ds suf : List Char), ds ≠ [] → (∀ c ∈ ds, c.isDigit = true) →
      (∀ c, suf.head? = some c → c.isDigit = false) →
      svKeyOf ⟨'S' :: 'V' :: '-' :: (ds ++ suf)⟩ = ⟨'S' :: 'V' :: '-' :: ds⟩) ∧
    (∀ v : String, (∀ c cs, v.data = 'S' :: 'V' :: '-' :: c :: cs → c.isDigit = false) →
      svKeyOf v = v) ∧
    getRuleKey { blankRule with rule_id := some "SV-12345r3_rule" } =
      getRuleKey { blankRule with rule_id := some "SV-12345" } := by
  refine ⟨?_, ?_, ?_, ?_, ?_, ?_, ?_, by decide⟩
  · intro r v hv hne
    rw [getRuleKey, firstTruthy, hv, if_pos (by simp [truthy, hne])]
  · intro r v h1 hv hne
    rw [getRuleKey, firstTruthy, if_neg (by simp [h1]), firstTruthy, hv,
      if_pos (by simp [truthy, hne])]
  · intro r v h1 h2 hv hne
    rw [getRuleKey, firstTruthy, if_neg (by simp [h1]), firstTruthy,
      if_neg (by simp [h2]), firstTruthy, hv, if_pos (by simp [truthy, hne])]
  · intro r v h1 h2 h3 hv hne
    rw [getRuleKey, firstTruthy, if_neg (by simp [h1]), firstTruthy,
      if_neg (by simp [h2]), firstTruthy, if_neg (by simp [h3]), firstTruthy, hv,
      if_pos (by simp [truthy, hne])]
  · intro r v h1 h2 h3 h4 hv hne
    rw [getRuleKey, firstTruthy, if_neg (by simp [h1]), firstTruthy,
      if_neg (by simp [h2]), firstTruthy, if_neg (by simp [h3]), firstTruthy,
      if_neg (by simp [h4]), firstTruthy, hv, if_pos (by simp [truthy, hne])]
  · intro ds suf hne hds hsuf
    cases ds with
    | nil => exact absurd rfl hne
    | cons d ds' =>
      have hd : d.isDigit = true := hds d (by simp)
      rw [svKeyOf]
      simp only [List.cons_append]
      rw [if_pos hd]
      have : List.takeWhile Char.isDigit (d :: (ds' ++ suf)) = d :: ds' := by
        have := takeWhile_all_append Char.isDigit (d :: ds') suf hds hsuf
        simpa using this
      rw [this]
  · intro v hv
    rw [svKeyOf]
    split
    · next c cs heq => rw [if_neg (by simp [hv c cs heq])]
    · rfl

theorem rule_key_resolution_witness :
    getRuleKey { blankRule with rule_id := some "", id := some "SV-5r1" } =
      svKeyOf "SV-5r1" ∧
    svKeyOf ⟨'S' :: 'V' :: '-' :: (['1', '2'] ++ ['r', '3'])⟩ =
      ⟨'S' :: 'V' :: '-' :: ['1', '2']⟩ ∧
    svKeyOf "V-100" = "V-100" := by
  refine ⟨?_, ?_, ?_⟩
  · exact rule_key_resolution.2.1 _ "SV-5r1" (by decide) rfl (by decide)
  · exact rule_key_resolution.2.2.2.2.2.1 ['1', '2'] ['r', '3'] (by decide) (by decide)
      (by decide)
  · refine rule_key_resolution.2.2.2.2.2.2.1 "V-100" (fun c cs h => ?_)
    have h2 : ('V' : Char) :: '-' :: '1' :: '0' :: '0' :: [] =
        'S' :: 'V' :: '-' :: c :: cs := h
    injection h2 with hc _
    exact absurd hc (by decide)

/-- Claim C3: every new-template rule whose key matches no old rule is left
exactly as in the template (hence keeps the template's default status) and
is recorded in the added list; the merged checklist's rules are the new
template's rules in the template's order, and the added list is the
order-preserving sublist of the unmatched ones. -/
theorem merge_added_rules_order (old new : Cklb) :
    allRules (mergedSel old new) = (allRules new).map (mergeRuleSel old) ∧
    addedSel old new =
      ((allRules new).filter (fun r => (oldLookupFind old r.group_id_src).isNone)).map
        (fun r => (r.group_id_src, r.rule_title.getD "UNKNOWN TITLE")) ∧
    (∀ r : Rule, oldLookupFind old r.group_id_src = none → mergeRuleSel old r = r) ∧
    (∀ r : Rule, r ∈ allRules new → oldLookupFind old r.group_id_src = none →
      mergeRuleSel old r ∈ allRules (mergedSel old new) ∧
      (r.group_id_src, r.rule_title.getD "UNKNOWN TITLE") ∈ addedSel old new) := by
  refine ⟨allRules_mergedSel old new, mergeLoop_added old (allRules new), ?_, ?_⟩
  · intro r h
    exact mergeRuleSel_unmatched h
  · intro r hmem hnone
    constructor
    · rw [allRules_mergedSel]
      exact List.mem_map_of_mem _ hmem
    · rw [addedSel, mergeLoop_added]
      refine List.mem_map_of_mem _ ?_
      rw [List.mem_filter]
      exact ⟨hmem, by simp [hnone]⟩

theorem merge_added_rules_order_witness :
    mergeRuleSel oldDoc ruleNew200 = ruleNew200 ∧
    mergeRuleSel oldDoc ruleNew200 ∈ allRules (mergedSel oldDoc newDoc) ∧
    (some "V-200", "Added rule") ∈ addedSel oldDoc newDoc := by
  have h := merge_added_rules_order oldDoc newDoc
  have h4 := h.2.2.2 ruleNew200 (by decide) (by decide)
  exact ⟨h.2.2.1 ruleNew200 (by decide), h4.1, h4.2⟩

/-- Claim C2: for every rule whose comparison key is present in both the
old checklist and the new template, the merged rule carries the old rule's
`status`, `comments` and `finding_details` (whenever the old rule has
them), while every descriptive field equals the new template's value.  This
holds both for `CKLBHandler.merge_cklb_data` (comparison key =
`get_rule_key`) and for the `selected_merger` merge (comparison key =
`group_id_src`). -/
theorem merge_preserves_findings (old new : Cklb) :
    coreGetRules (mergeCklbData old new) = (coreGetRules new).map (coreMergeRule old) ∧
    (∀ (r o : Rule) (s : String), coreOldIndexFind old (getRuleKey r) = some o →
      o.status = some s → (coreMergeRule old r).status = some s) ∧
    (∀ (r o : Rule) (s : String), coreOldIndexFind old (getRuleKey r) = some o →
      o.comments = some s → (coreMergeRule old r).comments = some s) ∧
    (∀ (r o : Rule) (s : String), coreOldIndexFind old (getRuleKey r) = some o →
      o.finding_details = some s → (coreMergeRule old r).finding_details = some s) ∧
    (∀ r : Rule, descrOf (coreMergeRule old r) = descrOf r) ∧
    allRules (mergedSel old new) = (allRules new).map (mergeRuleSel old) ∧
    (∀ (r o : Rule) (s : String), oldLookupFind old r.group_id_src = some o →
      o.status = some s → (mergeRuleSel old r).status = some s) ∧
    (∀ (r o : Rule) (s : String), oldLookupFind old r.group_id_src = some o →
      o.comments = some s → (mergeRuleSel old r).comments = some s) ∧
    (∀ (r o : Rule) (s : String), oldLookupFind old r.group_id_src = some o →
      o.finding_details = some s → (mergeRuleSel old r).finding_details = some s) ∧
    (∀ r : Rule, descrOf (mergeRuleSel old r) = descrOf r) := by
  refine ⟨coreGetRules_merge old new, ?_, ?_, ?_, coreMergeRule_descr old,
    allRules_mergedSel old new, ?_, ?_, ?_, mergeRuleSel_descr old⟩
  · intro r o s ho hs
    rw [coreMergeRule, ho]
    simp [getOr, hs]
  · intro r o s ho hs
    rw [coreMergeRule, ho]
    simp [getOr, hs]
  · intro r o s ho hs
    rw [coreMergeRule, ho]
    simp [getOr, hs]
  · intro r o s ho hs
    rw [mergeRuleSel, ho]
    dsimp only
    split <;> simp [getOr, hs]
  · intro r o s ho hs
    rw [mergeRuleSel, ho]
    dsimp only
    split <;> simp [getOr, hs]
  · intro r o s ho hs
    rw [mergeRuleSel, ho]
    dsimp only
    split <;> simp [getOr, hs]

theorem merge_preserves_findings_witness :
    (coreMergeRule oldDoc ruleNew100).status = some "open" ∧
    (coreMergeRule oldDoc ruleNew100).comments = some "c1" ∧
    (coreMergeRule oldDoc ruleNew100).finding_details = some "d1" ∧
    descrOf (coreMergeRule oldDoc ruleNew100) = descrOf ruleNew100 ∧
    (mergeRuleSel oldDoc ruleNew100).status = some "open" := by
  have h := merge_preserves_findings oldDoc newDoc
  refine ⟨h.2.1 ruleNew100 ruleOld100 "open" (by decide) rfl,
    h.2.2.1 ruleNew100 ruleOld100 "c1" (by decide) rfl,
    h.2.2.2.1 ruleNew100 ruleOld100 "d1" (by decide) rfl,
    h.2.2.2.2.1 ruleNew100,
    h.2.2.2.2.2.2.1 ruleNew100 ruleOld100 "open" (by decide) rfl⟩

/-! ### Claim C5 — empty-key rules

In `CKLBHandler`, the old-rules dict is keyed by `get_rule_key` with no
truthiness filter, so the empty key is a real key: empty-key rules of the
old and new documents match each other.  The claim that they are treated as
never matching fails there (it does hold for the `group_id_src`-keyed
`selected_merger` merge, which skips falsy keys). -/

/-- An old rule with no identity field at all, carrying findings. -/
def emptyKeyOldRule : Rule :=
  { blankRule with
    status := some "open", comments := some "oc", finding_details := some "od" }

/-- A new-template rule with no identity field at all. -/
def emptyKeyNewRule : Rule :=
  { blankRule with
    status := some "not_reviewed", comments := some "", finding_details := some "" }

def emptyKeyOldDoc : Cklb :=
  ⟨[⟨some "S_STIG", none, none, [emptyKeyOldRule]⟩], none, none, false⟩

def emptyKeyNewDoc : Cklb :=
  ⟨[⟨some "S_STIG", none, none, [emptyKeyNewRule]⟩], none, none, false⟩

/-- Counterexample to claim C5: both rules resolve to the empty key, yet
`merge_cklb_data` updates the new rule with the old rule's findings, and
`check_stig_id_match` does not count it as an added (unique) rule. -/
theorem empty_key_counterexample :
    getRuleKey emptyKeyOldRule = "" ∧
    getRuleKey emptyKeyNewRule = "" ∧
    coreGetRules (mergeCklbData emptyKeyOldDoc emptyKeyNewDoc) =
      [{ emptyKeyNewRule with
         status := some "open", comments := some "oc", finding_details := some "od" }] ∧
    coreFindNewRules emptyKeyOldDoc emptyKeyNewDoc = [] := by
  decide

/-- Claim C5 amended: empty-key rules share the empty-string key in
`CKLBHandler`, so an empty-key new rule is updated with the findings of the
(last) empty-key old rule and is not reported as new; only the
`selected_merger` merge treats rules with a falsy `group_id_src` as never
matching (they are left unchanged and its old-rule lookup never finds
them). -/
theorem empty_key_rules_match (old : Cklb) (r o : Rule)
    (hk : getRuleKey r = "") (ho : coreOldIndexFind old "" = some o) :
    (coreMergeRule old r).status = getOr o.status r.status ∧
    (coreMergeRule old r).comments = getOr o.comments r.comments ∧
    (coreMergeRule old r).finding_details = getOr o.finding_details r.finding_details ∧
    (∀ new : Cklb, r ∈ coreGetRules new → r ∉ coreFindNewRules old new) ∧
    (∀ c : Cklb, oldLookupFind c r.group_id_src = none ∧ mergeRuleSel c r = r) := by
  have hmerge : coreMergeRule old r =
      { r with
        status := getOr o.status r.status,
        comments := getOr o.comments r.comments,
        finding_details := getOr o.finding_details r.finding_details,
        overrides := getOr o.overrides r.overrides } := by
    rw [coreMergeRule, hk, ho]
  have hgid : truthy r.group_id_src = false := (getRuleKey_empty_fields hk).2.2.2.1
  have hlook : ∀ c : Cklb, oldLookupFind c r.group_id_src = none := by
    intro c
    cases hg : r.group_id_src with
    | none => rfl
    | some g =>
      rw [hg] at hgid
      simp [truthy] at hgid
      rw [oldLookupFind, hgid]
      simp
  refine ⟨by rw [hmerge], by rw [hmerge], by rw [hmerge], ?_, ?_⟩
  · intro new hmem hcontra
    rw [coreFindNewRules, List.mem_filter] at hcontra
    rcases hcontra with ⟨_, hpred⟩
    rw [hk, ho] at hpred
    simp at hpred
  · intro c
    exact ⟨hlook c, mergeRuleSel_unmatched (hlook c)⟩

theorem empty_key_rules_match_witness :
    (coreMergeRule emptyKeyOldDoc emptyKeyNewRule).status =
      getOr emptyKeyOldRule.status emptyKeyNewRule.status ∧
    (coreMergeRule emptyKeyOldDoc emptyKeyNewRule).comments =
      getOr emptyKeyOldRule.comments emptyKeyNewRule.comments ∧
    (coreMergeRule emptyKeyOldDoc emptyKeyNewRule).finding_details =
      getOr emptyKeyOldRule.finding_details emptyKeyNewRule.finding_details := by
  have h := empty_key_rules_match emptyKeyOldDoc emptyKeyNewRule emptyKeyOldRule
    (by decide) (by decide)
  exact ⟨h.1, h.2.1, h.2.2.1⟩

/-! ### Claim C6 — host-identifier selection

`selected_merger.main` computes `args.prefix or target_data.host_name`, so
a supplied prefix wins over a non-blank host name, contradicting the
claimed precedence; and `handlers.run_merge_task` aborts the batch when the
host name is blank and no usable prefix is supplied, contradicting "never
fails outright". -/

/-- Counterexample to claim C6: with host name `"H"` (non-blank) and
prefix `"P"`, `selected_merger` picks `"P"`, not the host name; and
`run_merge_task` with a blank host name and no prefix fails instead of
falling back to the old file's base name. -/
theorem host_ident_counterexample :
    (hostIdentSel (some "P") ⟨[], some ⟨some "H"⟩, none, false⟩ "oldbase").1 = "P" ∧
    ("P" : String) ≠ "H" ∧
    truthy (some "H") = true ∧
    hostIdentTask none none = .error "Prefix required" := by
  refine ⟨rfl, by decide, rfl, rfl⟩

/-- Claim C6 amended: in `selected_merger` the identifier is the supplied
prefix when truthy, otherwise `target_data.host_name` when truthy,
otherwise the old file's base name together with a logged warning — and
this selection is total (never fails).  In `run_merge_task` the host name
takes precedence, and a falsy host name with a missing or blank prefix
aborts the batch with an error instead of falling back. -/
theorem host_ident_resolution :
    (∀ (pfx : Option String) (old : Cklb) (oldBase : String), truthy pfx = true →
      hostIdentSel pfx old oldBase = (pfx.getD "", false)) ∧
    (∀ (pfx : Option String) (old : Cklb) (oldBase : String), truthy pfx = false →
      truthy (old.target_data.bind (·.host_name)) = true →
      hostIdentSel pfx old oldBase = ((old.target_data.bind (·.host_name)).getD "", false)) ∧
    (∀ (pfx : Option String) (old : Cklb) (oldBase : String), truthy pfx = false →
      truthy (old.target_data.bind (·.host_name)) = false →
      hostIdentSel pfx old oldBase = (oldBase, true)) ∧
    (∀ hostName pfx : Option String, truthy hostName = true →
      hostIdentTask hostName pfx = .ok (hostName.getD "")) ∧
    (∀ hostName : Option String, truthy hostName = false →
      hostIdentTask hostName none = .error "Prefix required") ∧
    (∀ (hostName : Option String) (p : String), truthy hostName = false →
      pyStrip p = "" → hostIdentTask hostName (some p) = .error "Prefix required") := by
  refine ⟨?_, ?_, ?_, ?_, ?_, ?_⟩
  · intro pfx old oldBase hp
    cases pfx with
    | none => simp [truthy] at hp
    | some p => simp [hostIdentSel, hp]
  · intro pfx old oldBase hp hh
    simp [hostIdentSel, hp, hh]
  · intro pfx old oldBase hp hh
    simp [hostIdentSel, hp, hh]
  · intro hostName pfx hh
    simp [hostIdentTask, hh]
  · intro hostName hh
    simp [hostIdentTask, hh]
  · intro hostName p hh hp
    simp [hostIdentTask, hh, hp]

theorem host_ident_resolution_witness :
    hostIdentSel (some "P") ⟨[], some ⟨some "H"⟩, none, false⟩ "b" = ("P", false) ∧
    hostIdentSel none ⟨[], some ⟨some "H"⟩, none, false⟩ "b" = ("H", false) ∧
    hostIdentSel none ⟨[], some ⟨some ""⟩, none, false⟩ "b" = ("b", true) ∧
    hostIdentTask (some "H") (some "P") = .ok "H" ∧
    hostIdentTask (some "") (some "  ") = .error "Prefix required" := by
  refine ⟨host_ident_resolution.1 (some "P") _ "b" rfl,
    host_ident_resolution.2.1 none _ "b" rfl rfl,
    host_ident_resolution.2.2.1 none _ "b" rfl rfl,
    host_ident_resolution.2.2.2.1 (some "H") (some "P") rfl,
    host_ident_resolution.2.2.2.2.2 (some "") "  " rfl (by decide)⟩

/-- Claim C7: the output-naming loop tries `base`, then `base_1`, `base_2`,
... in increasing order and returns the first name free in the output
directory; hence the chosen name never collides with an existing file, and
performing the same merge twice (the first output now existing) yields a
second name that is distinct from, and does not overwrite, the first. -/
theorem output_naming_unique (taken : List String) (base : String) :
    (∃ j, selOutName taken base = candidateName base j ∧
      candidateName base j ∉ taken ∧
      ∀ i, i < j → candidateName base i ∈ taken) ∧
    selOutName taken base ∉ taken ∧
    selOutName (selOutName taken base :: taken) base ∉ selOutName taken base :: taken ∧
    selOutName (selOutName taken base :: taken) base ≠ selOutName taken base := by
  refine ⟨selOutName_spec taken base, selOutName_free taken base,
    selOutName_free _ base, ?_⟩
  have h := selOutName_free (selOutName taken base :: taken) base
  intro hc
  apply h
  rw [hc]
  exact List.mem_cons_self _ _

theorem output_naming_unique_witness :
    selOutName ["h_new.cklb"] "h_new.cklb" ∉ ["h_new.cklb"] ∧
    selOutName (selOutName ["h_new.cklb"] "h_new.cklb" :: ["h_new.cklb"]) "h_new.cklb" ≠
      selOutName ["h_new.cklb"] "h_new.cklb" := by
  have h := output_naming_unique ["h_new.cklb"] "h_new.cklb"
  exact ⟨h.2.1, h.2.2.2⟩

/-! ### Claim C9 — the checkmate-lite diff

The diff branch guards test Python truthiness of the rule dicts
(`if ra and not rb / elif rb and not ra / elif ra and rb`), so a key
present in both dicts whose rule on one side is the empty dict is reported
as only-in-the-other-side with no `[DIFF]` line; and `sorted()` raises
`TypeError` on a key set mixing `None` with strings, aborting the
comparison with no diff output.  The claim's "reports exactly the pairs
whose values differ" is therefore false of the program; the amended
statement below adds both qualifications. -/

theorem liteDictFind_mem_list {rs : List Rule} {k : Option String} {r : Rule}
    (h : liteDictFind rs k = some r) : r ∈ rs := by
  rcases liteDictFind_mem none h with ⟨x, hx, _, rfl⟩ | hacc
  · exact hx
  · simp at hacc

theorem mem_liteDiffLoop {a b : List Rule} {x : DiffLine} (ks : List (Option String)) :
    x ∈ liteDiffLoop a b ks ↔ ∃ k, k ∈ ks ∧ x ∈ liteBranch a b k := by
  induction ks with
  | nil => simp [liteDiffLoop]
  | cons k rest ih =>
    rw [liteDiffLoop, List.mem_append, ih]
    constructor
    · rintro (hx | ⟨k1, hk1, hx⟩)
      · exact ⟨k, List.mem_cons_self _ _, hx⟩
      · exact ⟨k1, List.mem_cons_of_mem _ hk1, hx⟩
    · rintro ⟨k1, hk1, hx⟩
      rcases List.mem_cons.mp hk1 with rfl | hmem
      · exact Or.inl hx
      · exact Or.inr ⟨k1, hmem, hx⟩

theorem diffLine_mem_branch {a b : List Rule} {k k1 fa fb : Option String} :
    DiffLine.diffLine k1 fa fb ∈ liteBranch a b k ↔
      (k1 = k ∧ optRuleTruthy (liteDictFind a k) = true ∧
       optRuleTruthy (liteDictFind b k) = true ∧
       findingsOpt (liteDictFind a k) ≠ findingsOpt (liteDictFind b k) ∧
       fa = findingsOpt (liteDictFind a k) ∧ fb = findingsOpt (liteDictFind b k)) := by
  simp only [liteBranch]
  cases ha : optRuleTruthy (liteDictFind a k) <;>
    cases hb : optRuleTruthy (liteDictFind b k)
  · simp [ha, hb]
  · simp [ha, hb]
  · simp [ha, hb]
  · by_cases hf : findingsOpt (liteDictFind a k) ≠ findingsOpt (liteDictFind b k) <;>
      simp [ha, hb, hf]

/-- The rules used by the C9 counterexample and witness. -/
def liteRuleA : Rule :=
  { blankRule with
    rule_id := some "SV-1", status := some "open", comments := some "a-comment" }

def liteRuleB : Rule :=
  { blankRule with
    rule_id := some "SV-1", status := some "not_a_finding", comments := some "b-comment" }

/-- A rule with a finding but no identity field: its key is `None` and its
dict is truthy. -/
def ruleOpenNoKey : Rule :=
  { blankRule with status := some "open" }

def ruleSVopen : Rule :=
  { blankRule with rule_id := some "SV-1", status := some "open" }

def ruleSVnaf : Rule :=
  { blankRule with rule_id := some "SV-1", status := some "not_a_finding" }

/-- Counterexample to claim C9.  First part: the key `None` is present in
both dicts and the chosen finding values differ (`None` vs `"open"`), yet
the program reports `[ONLY IN B]` and no `[DIFF]`, because the empty rule
dict on the A side is falsy.  Second part: the key `"SV-1"` is present in
both dicts with differing findings, yet the program raises `TypeError`
(the key set mixes `None` and a string, which `sorted` cannot order) and
reports nothing. -/
theorem lite_diff_counterexample :
    (liteRuleKey blankRule = none ∧ liteRuleKey ruleOpenNoKey = none ∧
      liteDictFind [blankRule] none = some blankRule ∧
      liteDictFind [ruleOpenNoKey] none = some ruleOpenNoKey ∧
      liteFindings blankRule ≠ liteFindings ruleOpenNoKey ∧
      compareRulesLite [blankRule] [ruleOpenNoKey] = .ok [DiffLine.onlyInB none]) ∧
    (liteRuleKey ruleSVopen = liteRuleKey ruleSVnaf ∧
      liteFindings ruleSVopen ≠ liteFindings ruleSVnaf ∧
      compareRulesLite [ruleSVopen, ruleOpenNoKey] [ruleSVnaf, ruleOpenNoKey] =
        .error .typeError) := by
  refine ⟨⟨rfl, rfl, rfl, rfl, by decide, rfl⟩, rfl, by decide, rfl⟩

/-- Claim C9 amended: when the union of the two key sets mixes `None` with
string keys, the comparison raises `TypeError` and reports nothing;
otherwise it emits a `[DIFF]` line exactly for the keys present in both
dicts whose rule dicts are both non-empty and whose single chosen finding
field differs — that field is `status` when truthy, else `finding`, else
`Finding` — and, over checklists whose rules are all non-empty dicts, the
report is invariant under changes to `comments` and `finding_details`. -/
theorem lite_diff_reports (a b : List Rule) :
    ((none ∈ liteKeySet a b ∧ ∃ k ∈ liteKeySet a b, k.isSome = true) →
      compareRulesLite a b = .error .typeError) ∧
    (¬ (none ∈ liteKeySet a b ∧ ∃ k ∈ liteKeySet a b, k.isSome = true) →
      ∃ out, compareRulesLite a b = .ok out ∧
        ∀ k : Option String,
          (∃ fa fb, DiffLine.diffLine k fa fb ∈ out) ↔
          (∃ ra rb : Rule, liteDictFind a k = some ra ∧ liteDictFind b k = some rb ∧
            ruleTruthy ra = true ∧ ruleTruthy rb = true ∧
            liteFindings ra ≠ liteFindings rb)) ∧
    (∀ r : Rule, truthy r.status = true → liteFindings r = r.status) ∧
    (∀ r : Rule, truthy r.status = false → truthy r.finding = true →
      liteFindings r = r.finding) ∧
    (∀ r : Rule, truthy r.status = false → truthy r.finding = false →
      liteFindings r = r.Finding) ∧
    ((∀ r ∈ a, ruleTruthy r = true) → (∀ r ∈ b, ruleTruthy r = true) →
      ∀ cm fd : String,
        compareRulesLite
          (a.map (fun r => { r with comments := some cm, finding_details := some fd }))
          (b.map (fun r => { r with comments := some cm, finding_details := some fd })) =
        compareRulesLite a b) := by
  refine ⟨?_, ?_, ?_, ?_, ?_, ?_⟩
  · intro hmix
    simp only [compareRulesLite]
    rw [if_pos hmix]
  · intro hmix
    refine ⟨liteDiffLoop a b (List.insertionSort liteKeyLE (liteKeySet a b)), ?_, ?_⟩
    · simp only [compareRulesLite]
      rw [if_neg hmix]
    · intro k
      constructor
      · rintro ⟨fa, fb, hmem⟩
        obtain ⟨k1, hk1, hbr⟩ := (mem_liteDiffLoop _).mp hmem
        obtain ⟨hke, hta, htb, hne, hfa, hfb⟩ := diffLine_mem_branch.mp hbr
        subst hke
        cases hfinda : liteDictFind a k with
        | none => rw [hfinda] at hta; simp [optRuleTruthy] at hta
        | some ra =>
          cases hfindb : liteDictFind b k with
          | none => rw [hfindb] at htb; simp [optRuleTruthy] at htb
          | some rb =>
            rw [hfinda] at hta
            rw [hfindb] at htb
            rw [hfinda, hfindb] at hne
            exact ⟨ra, rb, rfl, rfl, hta, htb, hne⟩
      · rintro ⟨ra, rb, hra, hrb, hta, htb, hne⟩
        have hk : k ∈ liteKeySet a b := by
          rw [liteKeySet, List.mem_dedup, List.mem_append]
          exact Or.inl (liteDictFind_some hra).2
        have hks : k ∈ List.insertionSort liteKeyLE (liteKeySet a b) :=
          (List.perm_insertionSort _ _).mem_iff.mpr hk
        refine ⟨findingsOpt (liteDictFind a k), findingsOpt (liteDictFind b k),
          (mem_liteDiffLoop _).mpr ⟨k, hks, ?_⟩⟩
        apply diffLine_mem_branch.mpr
        refine ⟨rfl, ?_, ?_, ?_, rfl, rfl⟩
        · rw [hra]; exact hta
        · rw [hrb]; exact htb
        · rw [hra, hrb]; exact hne
  · intro r hs
    simp [liteFindings, pyOr, hs]
  · intro r hs hf
    simp [liteFindings, pyOr, hs, hf]
  · intro r hs hf
    simp [liteFindings, pyOr, hs, hf]
  · intro hta htb cm fd
    have hkey : ∀ r : Rule,
        liteRuleKey { r with comments := some cm, finding_details := some fd } =
        liteRuleKey r := fun _ => rfl
    have hks :
        liteKeySet (a.map (fun r => { r with comments := some cm, finding_details := some fd }))
          (b.map (fun r => { r with comments := some cm, finding_details := some fd })) =
        liteKeySet a b := by
      rw [liteKeySet, liteKeySet, List.map_map, List.map_map]
      rfl
    have hA : ∀ (rs : List Rule), (∀ r ∈ rs, ruleTruthy r = true) → ∀ k,
        optRuleTruthy ((liteDictFind rs k).map
          (fun r => { r with comments := some cm, finding_details := some fd })) =
        optRuleTruthy (liteDictFind rs k) := by
      intro rs hrs k
      cases hfind : liteDictFind rs k with
      | none => rfl
      | some r =>
        show ruleTruthy { r with comments := some cm, finding_details := some fd } =
          ruleTruthy r
        have h1 : ruleTruthy { r with comments := some cm, finding_details := some fd } =
            true := by
          simp [ruleTruthy]
        rw [h1, hrs r (liteDictFind_mem_list hfind)]
    have hF : ∀ (rs : List Rule) (k : Option String),
        findingsOpt ((liteDictFind rs k).map
          (fun r => { r with comments := some cm, finding_details := some fd })) =
        findingsOpt (liteDictFind rs k) := by
      intro rs k
      cases liteDictFind rs k with
      | none => rfl
      | some r => rfl
    have hbranch : ∀ k,
        liteBranch (a.map (fun r => { r with comments := some cm, finding_details := some fd }))
          (b.map (fun r => { r with comments := some cm, finding_details := some fd })) k =
        liteBranch a b k := by
      intro k
      rw [liteBranch, liteBranch, liteDictFind_map hkey, liteDictFind_map hkey,
        hA a hta k, hA b htb k, hF a k, hF b k]
    have hloop : ∀ ks,
        liteDiffLoop (a.map (fun r => { r with comments := some cm, finding_details := some fd }))
          (b.map (fun r => { r with comments := some cm, finding_details := some fd })) ks =
        liteDiffLoop a b ks := by
      intro ks
      induction ks with
      | nil => rfl
      | cons k rest ih => rw [liteDiffLoop, liteDiffLoop, hbranch k, ih]
    simp only [compareRulesLite]
    rw [hks]
    by_cases hc : none ∈ liteKeySet a b ∧ ∃ k ∈ liteKeySet a b, k.isSome = true
    · rw [if_pos hc, if_pos hc]
    · rw [if_neg hc, if_neg hc, hloop]

theorem lite_diff_reports_witness :
    compareRulesLite [ruleSVopen] [ruleOpenNoKey] = .error .typeError ∧
    (∃ out, compareRulesLite [liteRuleA] [liteRuleB] = .ok out ∧
      ∃ fa fb, DiffLine.diffLine (some "SV-1") fa fb ∈ out) ∧
    liteFindings liteRuleA = some "open" := by
  have h1 := lite_diff_reports [ruleSVopen] [ruleOpenNoKey]
  have h2 := lite_diff_reports [liteRuleA] [liteRuleB]
  refine ⟨h1.1 (by decide), ?_, h2.2.2.1 liteRuleA rfl⟩
  obtain ⟨out, hout, hiff⟩ := h2.2.1 (by decide)
  exact ⟨out, hout, (hiff (some "SV-1")).mpr
    ⟨liteRuleA, liteRuleB, by decide, by decide, by decide, by decide, by decide⟩⟩


/-! ### Claim C8 — missing optional XML nodes

`parse_rules` guards the description sections, the fix text and the check
content against absent nodes, but reads `grp.find('title').text`,
`grp.find('description').text`, `rule.find('version').text` and
`rule.find('title').text` unguarded: a Group that has a Rule child but no
`description` element (optional in XCCDF) raises `AttributeError` instead
of yielding an empty string. -/

/-- A leaf element with text. -/
def xTextElem (tg t : String) : XElem :=
  .mk tg [] (some t) []

/-- A Rule element with `version` and `title` children. -/
def c8Rule : XElem :=
  .mk "Rule" [] none [xTextElem "version" "V1", xTextElem "title" "Rule title"]

/-- A Group with a Rule child and a `title`, but no `description` child. -/
def c8Group : XElem :=
  .mk "Group" [("id", "V-1")] none [xTextElem "title" "Group title", c8Rule]

/-- A benchmark whose header is complete and whose single Group lacks a
`description`. -/
def c8Root : XElem :=
  .mk "Benchmark" [("id", "B_STIG")] none
    [xTextElem "title" "B title",
     .mk "plain-text" [("id", "release-info")] (some "Release: 1") [],
     xTextElem "version" "1",
     c8Group]

/-- Claim C8 is contradicted by the code: the Group below has a Rule child
and a complete benchmark header, only its optional `description` element is
absent, yet `parse_rules` raises `AttributeError` instead of producing a
rule with an empty `discussion`. -/
theorem parse_rules_missing_description_raises :
    (c8Group.find "Rule").isSome = true ∧
    c8Group.find "description" = none ∧
    parseRules c8Root "in.xml" "2024-01-01T00:00:00+00:00" "stig-uuid"
      (fun _ => "rule-uuid") = .error .attributeError := by
  refine ⟨rfl, rfl, ?_⟩
  rfl

/-- Auxiliary: the group loop returns `.ok []` when no Group has a Rule
child. -/
theorem parseRulesLoop_skip (inputBase mtime su : String) (ug : Nat → String) :
    ∀ (gs : List XElem) (i : Nat), (∀ g ∈ gs, g.find "Rule" = none) →
    parseRulesLoop inputBase mtime su ug gs i = .ok [] := by
  intro gs
  induction gs with
  | nil => intro i _; rfl
  | cons g rest ih =>
    intro i hall
    have hfind := hall g (by simp)
    rw [parseRulesLoop, hfind]
    exact ih i (fun g' hg' => hall g' (by simp [hg']))

/-- Claim C10: on a benchmark with `title`, `version` and release-info
elements in which no Group has a Rule child, `build_cklb` returns (without
raising) a complete checklist whose single StigDefinition has an empty rule
list, `size = 0` and a null `reference_identifier`. -/
theorem build_cklb_no_rules (root : XElem) (inputBase mtime stigUuid cklbId : String)
    (uuidGen : Nat → String)
    (ht : (root.find "title").isSome = true)
    (hrel : (findReleaseInfo root).isSome = true)
    (hv : (root.find "version").isSome = true)
    (hg : ∀ g ∈ root.findall "Group", g.find "Rule" = none) :
    ∃ c : GenCklb, buildCklb root inputBase mtime stigUuid cklbId uuidGen = .ok c ∧
      ∃ s : GenStig, c.stigs = [s] ∧ s.rules = [] ∧ s.size = 0 ∧
        s.reference_identifier = none := by
  obtain ⟨te, hte⟩ := Option.isSome_iff_exists.mp ht
  obtain ⟨re, hre⟩ := Option.isSome_iff_exists.mp hrel
  obtain ⟨ve, hve⟩ := Option.isSome_iff_exists.mp hv
  have hpb : parseBenchmark root =
      .ok (te.text.getD "", (root.attr "id").getD "", re.text.getD "", ve.text.getD "") := by
    rw [parseBenchmark, hte, hre, hve]
    rfl
  have hrules : parseRules root inputBase mtime stigUuid uuidGen = .ok [] := by
    rw [parseRules]
    exact parseRulesLoop_skip inputBase mtime stigUuid uuidGen _ 0 hg
  rw [buildCklb, hpb, hrules]
  exact ⟨_, rfl, _, rfl, rfl, rfl, rfl⟩

/-- A Group with no Rule child. -/
def c10Group : XElem :=
  .mk "Group" [("id", "V-9")] none [xTextElem "title" "G"]

/-- A complete benchmark header over a single rule-less Group. -/
def c10Root : XElem :=
  .mk "Benchmark" [("id", "X_STIG")] none
    [xTextElem "title" "T",
     .mk "plain-text" [("id", "release-info")] (some "Release: 2") [],
     xTextElem "version" "2",
     c10Group]

theorem build_cklb_no_rules_witness :
    ∃ c : GenCklb, buildCklb c10Root "in.xml" "m" "su" "cid" (fun _ => "ru") = .ok c ∧
      ∃ s : GenStig, c.stigs = [s] ∧ s.rules = [] ∧ s.size = 0 ∧
        s.reference_identifier = none := by
  refine build_cklb_no_rules c10Root "in.xml" "m" "su" "cid" (fun _ => "ru")
    rfl rfl rfl ?_
  intro g hg
  have hl : c10Root.findall "Group" = [c10Group] := rfl
  rw [hl] at hg
  simp at hg
  subst hg
  rfl

end Checkmate
